import Mathlib

/-!
Shallow embedding of `databuilder/loader/S3_neo4j_csv_loader.py`
(`S3Neo4jCSVLoader`): a loader that writes node and relationship rows to
CSV objects in an S3 bucket, grouping rows by a signature id derived from
their column-name set, and sets ACLs on the node objects after the node
pass.

Rows are modelled as association lists from column name to value (Python
dicts preserve insertion order); `frozenset(record_dict.keys())` becomes a
`Finset String`; the `_keys` dict becomes an association list recording
insertion order, since `dict.setdefault` appends new entries at the end;
the S3 bucket becomes an association list from object key to stored table;
the remote calls made by `load` are recorded in an event trace.
-/

/-- A serialized row: column name to scalar value, in insertion order
(the Python dict produced by the serializer). -/
abbrev Row := List (String × String)

/-- A staged CSV table: the list of its data rows. -/
abbrev Table := List Row

/-- `frozenset(record_dict.keys())`: the unordered set of column names. -/
def colSet (r : Row) : Finset String := (r.map Prod.fst).toFinset

/-- The `_keys` mapping of the loader: column-name set to signature id,
kept as an association list in insertion order. -/
abbrev KeysMap := List (Finset String × Nat)

/-- Dictionary lookup in the `_keys` mapping. -/
def lookupSet : KeysMap → Finset String → Option Nat
  | [], _ => none
  | (k, v) :: rest, s => if k = s then some v else lookupSet rest s

/-- `_make_key`: `self._keys.setdefault(frozenset(record_dict.keys()), len(self._keys))`.
Returns the id and the (possibly grown) mapping; a new set is assigned the
current size of the mapping. -/
def make_key (keys : KeysMap) (s : Finset String) : Nat × KeysMap :=
  match lookupSet keys s with
  | some v => (v, keys)
  | none => (keys.length, keys ++ [(s, keys.length)])

/-- A Python exception raised by the storage layer: a
`botocore.exceptions.ClientError` carrying an error code, or any other
exception. -/
inductive PyExc where
  | clientError (code : String)
  | otherExc
deriving DecidableEq, Repr

/-- Outcome of the `s3.Object(...).load()` metadata call inside
`_s3_obj_exists`. -/
inductive HeadOutcome where
  | success
  | raises (e : PyExc)
deriving DecidableEq, Repr

/-- `_s3_obj_exists`: returns `True` when the metadata call succeeds;
catches `ClientError` and returns `False` on code `"404"`; a caught
`ClientError` with any other code falls off the end of the function and
returns Python `None` (modelled `Except.ok none`); a non-`ClientError`
exception propagates (`Except.error`). -/
def s3_obj_exists : HeadOutcome → Except PyExc (Option Bool)
  | .success => .ok (some true)
  | .raises (.clientError code) =>
      if code = "404" then .ok (some false) else .ok none
  | .raises .otherExc => .error .otherExc

/-- The branch taken by `_get_s3_object`: it appends to the existing file
only when `_s3_obj_exists(...) == True`; any other returned value
(including Python `None`) takes the create-new-file branch. -/
def get_s3_object_appends (existsResult : Option Bool) : Bool :=
  existsResult == some true

/-- `get_scope`: reads nothing from the loader state and returns a fixed
string; the state is returned unchanged (the method has no side effects). -/
def get_scope (keys : KeysMap) : String × KeysMap :=
  ("loader.filesystem_csv_neo4j", keys)

/-- Running a sequence of `_make_key` calls from a given mapping,
keeping only the final mapping. -/
def runKeys : List (Finset String) → KeysMap → KeysMap
  | [], keys => keys
  | s :: rest, keys => runKeys rest (make_key keys s).2

/-! ## Storage and the `load` flow

The bucket is a finite map from object key to stored table. Each row
processed by `load` triggers an existence check, an optional whole-object
read, and a whole-object write, via `_get_s3_object`; after the node loop
`update_acls` puts a public-read ACL on every object whose key starts with
the node key prefix. These remote calls are recorded in a trace. -/

/-- The contents of the bucket: object key to staged table. -/
abbrev Storage := List (String × Table)

/-- Look up the table stored at an object key. -/
def lookupObj : Storage → String → Option Table
  | [], _ => none
  | (q, u) :: rest, p => if q = p then some u else lookupObj rest p

/-- `df.to_csv(...)`: overwrite (or create) the object at a key. -/
def putObj : Storage → String → Table → Storage
  | [], p, t => [(p, t)]
  | (q, u) :: rest, p, t =>
      if q = p then (p, t) :: rest else (q, u) :: putObj rest p t

/-- `my_bucket.objects.filter(Prefix=s3_prefix)`: keys of the objects
under a key prefix. -/
def objectsUnder (store : Storage) (pfx : String) : List String :=
  (store.map Prod.fst).filter (fun k => k.startsWith pfx)

/-- One remote call made by `load`, in order of occurrence. -/
inductive S3Event where
  /-- `s3.Object(bucket, key).load()` inside `_s3_obj_exists`. -/
  | headObj (path : String) (found : Bool)
  /-- `pd.read_csv('s3://...')`. -/
  | readCsv (path : String)
  /-- `df.to_csv('s3://...', index=False)`. -/
  | writeCsv (path : String)
  /-- The `update_acls` pass: one `Acl().put(ACL='public-read')` per
  object under the key prefix. -/
  | aclPass (pfx : String) (numObjects : Nat)
deriving DecidableEq, Repr

/-- Number of remote CSV reads in a trace. -/
def readCount (tr : List S3Event) : Nat :=
  (tr.filter (fun e => match e with | .readCsv _ => true | _ => false)).length

/-- Number of remote CSV writes in a trace. -/
def writeCount (tr : List S3Event) : Nat :=
  (tr.filter (fun e => match e with | .writeCsv _ => true | _ => false)).length

/-- The object keys written by a trace, in order. -/
def writePaths (tr : List S3Event) : List String :=
  tr.filterMap (fun e => match e with | .writeCsv p => some p | _ => none)

/-- The ACL passes of a trace. -/
def aclEvents (tr : List S3Event) : List S3Event :=
  tr.filter (fun e => match e with | .aclPass _ _ => true | _ => false)

/-- `_get_s3_object` on the error-free path: if the object exists, read
it, append the row (`df.append(df2, ignore_index=True)`) and write the
whole table back; otherwise write a fresh single-row table
(`pd.DataFrame.from_records(node_dict, index=[0])`, written with
`index=False` so no index column is stored). -/
def get_s3_object (store : Storage) (rowd : Row) (path : String) :
    Storage × List S3Event :=
  match lookupObj store path with
  | some t =>
      (putObj store path (t ++ [rowd]),
       [.headObj path true, .readCsv path, .writeCsv path])
  | none =>
      (putObj store path [rowd],
       [.headObj path false, .writeCsv path])

/-- `update_acls`: iterate the objects under the key prefix and put a
public-read ACL on each. -/
def update_acls (store : Storage) (pfx : String) : List S3Event :=
  [.aclPass pfx (objectsUnder store pfx).length]

/-- A node as consumed by `load`: its `label` attribute and the row
produced by `neo4_serializer.serialize_node`. -/
structure Node where
  label : String
  row : Row
deriving Repr

/-- A relationship as consumed by `load`: its `start_label`, `end_label`
and `type` attributes and the row produced by
`neo4_serializer.serialize_relationship`. -/
structure Relation where
  start_label : String
  end_label : String
  type : String
  row : Row
deriving Repr

/-- A `GraphSerializable` record: the finite sequences drained by
`next_node()` and `next_relation()`. -/
structure Record where
  nodes : List Node
  relations : List Relation
deriving Repr

/-- Mutable loader state threaded through `load`: the `_keys` mapping and
the bucket contents. -/
structure LoaderState where
  keys : KeysMap
  store : Storage

/-- One iteration of the node loop of `load`: serialize, build
`key = (node.label, self._make_key(node_dict))`, format
`file_suffix = '\x7b\x7d_\x7b\x7d'.format(*key)`, and call
`_get_s3_object` on `<node_s3_prefix><file_suffix>.csv`. -/
def processNode (nodePfx : String) (st : LoaderState) (n : Node) :
    LoaderState × List S3Event :=
  let kres := make_key st.keys (colSet n.row)
  let suffix := n.label ++ "_" ++ toString kres.1
  let res := get_s3_object st.store n.row (nodePfx ++ suffix ++ ".csv")
  (⟨kres.2, res.1⟩, res.2)

/-- The node loop of `load`. -/
def processNodes (nodePfx : String) :
    LoaderState → List Node → LoaderState × List S3Event
  | st, [] => (st, [])
  | st, n :: rest =>
    let r1 := processNode nodePfx st n
    let r2 := processNodes nodePfx r1.1 rest
    (r2.1, r1.2 ++ r2.2)

/-- One iteration of the relationship loop of `load`: serialize, build
`key2 = (start_label, end_label, type, self._make_key(relation_dict))`,
format `file_suffix = f'\x7bkey2[0]\x7d_\x7bkey2[1]\x7d_\x7bkey2[2]\x7d'`
— note the f-string uses only the first three components of `key2`, so
the signature id computed by `_make_key` is recorded in `_keys` but does
not appear in the object key — and call `_get_s3_object` on
`<relations_s3_prefix><file_suffix>.csv`. -/
def processRelation (relPfx : String) (st : LoaderState) (r : Relation) :
    LoaderState × List S3Event :=
  let kres := make_key st.keys (colSet r.row)
  let suffix := r.start_label ++ "_" ++ r.end_label ++ "_" ++ r.type
  let res := get_s3_object st.store r.row (relPfx ++ suffix ++ ".csv")
  (⟨kres.2, res.1⟩, res.2)

/-- The relationship loop of `load`. -/
def processRelations (relPfx : String) :
    LoaderState → List Relation → LoaderState × List S3Event
  | st, [] => (st, [])
  | st, r :: rest =>
    let r1 := processRelation relPfx st r
    let r2 := processRelations relPfx r1.1 rest
    (r2.1, r1.2 ++ r2.2)

/-- `load`: drain the node sequence, run `update_acls` over the node key
prefix, then drain the relationship sequence. -/
def load (nodePfx relPfx : String) (st : LoaderState) (rec : Record) :
    LoaderState × List S3Event :=
  let rn := processNodes nodePfx st rec.nodes
  let evA := update_acls rn.1.store nodePfx
  let rr := processRelations relPfx rn.1 rec.relations
  (rr.1, rn.2 ++ evA ++ rr.2)

/-- Header row written by `to_csv(..., index=False)` for a staged table:
the column names of its rows (no index column). -/
def tableHeader : Table → List String
  | [] => []
  | r :: _ => r.map Prod.fst

/-! ## Helper lemmas -/

/-- A successful lookup is unaffected by appending further entries. -/
theorem lookupSet_append (keys l : KeysMap) (s : Finset String) (v : Nat)
    (h : lookupSet keys s = some v) :
    lookupSet (keys ++ l) s = some v := by
  induction keys with
  | nil => simp [lookupSet] at h
  | cons p rest ih =>
    obtain ⟨k, w⟩ := p
    simp only [lookupSet, List.cons_append] at h ⊢
    by_cases hks : k = s
    · simpa [hks] using h
    · simp only [hks, if_false] at h ⊢
      exact ih h

/-- Once a set is recorded with an id, any later `_make_key` call leaves
that entry intact. -/
theorem lookupSet_make_key_preserved (keys : KeysMap) (s t : Finset String)
    (v : Nat) (h : lookupSet keys s = some v) :
    lookupSet (make_key keys t).2 s = some v := by
  unfold make_key
  cases hl : lookupSet keys t with
  | some w => simpa using h
  | none => exact lookupSet_append keys _ s v h

/-- A recorded entry survives any sequence of further `_make_key` calls. -/
theorem lookupSet_runKeys_preserved (calls : List (Finset String))
    (keys : KeysMap) (s : Finset String) (v : Nat)
    (h : lookupSet keys s = some v) :
    lookupSet (runKeys calls keys) s = some v := by
  induction calls generalizing keys with
  | nil => simpa [runKeys] using h
  | cons t rest ih =>
    exact ih _ (lookupSet_make_key_preserved keys s t v h)

/-- Looking up a freshly appended entry succeeds when the set was absent. -/
theorem lookupSet_append_self (keys : KeysMap) (s : Finset String) (v : Nat)
    (h : lookupSet keys s = none) :
    lookupSet (keys ++ [(s, v)]) s = some v := by
  induction keys with
  | nil => simp [lookupSet]
  | cons p rest ih =>
    obtain ⟨k, w⟩ := p
    simp only [lookupSet, List.cons_append] at h ⊢
    by_cases hks : k = s
    · simp [hks] at h
    · simp only [hks, if_false] at h ⊢
      exact ih h

/-- After a `_make_key` call, the queried set is recorded with the
returned id. -/
theorem make_key_lookup_post (keys : KeysMap) (s : Finset String) :
    lookupSet (make_key keys s).2 s = some (make_key keys s).1 := by
  unfold make_key
  cases hl : lookupSet keys s with
  | some v => simpa using hl
  | none => simpa using lookupSet_append_self keys s keys.length hl

/-- The node loop only ever grows the `_keys` mapping: a recorded entry
survives it. -/
theorem lookupSet_processNodes_preserved (nodePfx : String)
    (ns : List Node) (st : LoaderState) (s : Finset String) (v : Nat)
    (h : lookupSet st.keys s = some v) :
    lookupSet (processNodes nodePfx st ns).1.keys s = some v := by
  induction ns generalizing st with
  | nil => simpa [processNodes] using h
  | cons n rest ih =>
    simp only [processNodes]
    exact ih _ (lookupSet_make_key_preserved st.keys s (colSet n.row) v h)

/-- Writing an object makes it readable at its key. -/
theorem lookupObj_putObj_self (store : Storage) (p : String) (t : Table) :
    lookupObj (putObj store p t) p = some t := by
  induction store with
  | nil => simp [putObj, lookupObj]
  | cons q rest ih =>
    obtain ⟨k, u⟩ := q
    by_cases hk : k = p
    · simp [putObj, lookupObj, hk]
    · simp [putObj, lookupObj, hk, ih]

/-- `_get_s3_object` never emits an ACL event. -/
theorem aclEvents_get_s3_object (store : Storage) (rowd : Row) (path : String) :
    aclEvents (get_s3_object store rowd path).2 = [] := by
  unfold get_s3_object
  cases lookupObj store path <;> simp [aclEvents]

/-- The node loop never emits an ACL event. -/
theorem aclEvents_processNodes (nodePfx : String) (ns : List Node)
    (st : LoaderState) :
    aclEvents (processNodes nodePfx st ns).2 = [] := by
  induction ns generalizing st with
  | nil => simp [processNodes, aclEvents]
  | cons n rest ih =>
    simp only [processNodes, aclEvents, List.filter_append]
    rw [← aclEvents, ← aclEvents, ih]
    simp only [processNode]
    rw [aclEvents_get_s3_object]
    rfl

/-- The relationship loop never emits an ACL event. -/
theorem aclEvents_processRelations (relPfx : String) (rs : List Relation)
    (st : LoaderState) :
    aclEvents (processRelations relPfx st rs).2 = [] := by
  induction rs generalizing st with
  | nil => simp [processRelations, aclEvents]
  | cons r rest ih =>
    simp only [processRelations, aclEvents, List.filter_append]
    rw [← aclEvents, ← aclEvents, ih]
    simp only [processRelation]
    rw [aclEvents_get_s3_object]
    rfl

/-- `_make_key` preserves the invariant that the recorded ids are exactly
`0, 1, ..., size-1` in insertion order. -/
theorem make_key_snd_range (K : KeysMap)
    (h : K.map Prod.snd = List.range K.length) (s : Finset String) :
    (make_key K s).2.map Prod.snd = List.range (make_key K s).2.length := by
  unfold make_key
  cases hl : lookupSet K s with
  | some v => simpa using h
  | none => simp [h, List.range_succ]

/-- Any sequence of `_make_key` calls preserves the contiguous-ids
invariant. -/
theorem runKeys_snd_range (calls : List (Finset String)) (K : KeysMap)
    (h : K.map Prod.snd = List.range K.length) :
    (runKeys calls K).map Prod.snd = List.range (runKeys calls K).length := by
  induction calls generalizing K with
  | nil => simpa [runKeys] using h
  | cons s rest ih => exact ih _ (make_key_snd_range K h s)

/-- Write paths distribute over trace concatenation. -/
theorem writePaths_append (a b : List S3Event) :
    writePaths (a ++ b) = writePaths a ++ writePaths b := by
  simp [writePaths]

/-- Processing one node writes exactly one object, at key
`<node_s3_prefix><label>_<signature_id>.csv`. -/
theorem writePaths_processNode (nodePfx : String) (st : LoaderState) (n : Node) :
    writePaths (processNode nodePfx st n).2 =
      [nodePfx ++ (n.label ++ "_" ++
        toString (make_key st.keys (colSet n.row)).1) ++ ".csv"] := by
  simp only [processNode, get_s3_object]
  cases lookupObj st.store (nodePfx ++ (n.label ++ "_" ++
      toString (make_key st.keys (colSet n.row)).1) ++ ".csv") <;>
    simp [writePaths]

/-! ## Claims -/

/-- C1: the claim says a relationship row is written to
`<relation_prefix><start_label>_<end_label>_<type>_<signature_id>.csv`, so
rows with the same labels and type but different column-name sets land in
distinct objects. The code computes the signature id into `key2` but the
`file_suffix` f-string uses only `key2[0]`, `key2[1]`, `key2[2]`:
evaluated on two relationship rows with the same `(start_label, end_label,
type)` and different column sets, both writes target one and the same key
`r/A_B_R.csv`, even though the two column sets were assigned the distinct
signature ids 0 and 1. -/
theorem c1_relationship_key_drops_signature_id :
    writePaths (load "n/" "r/" ⟨[], []⟩
      ⟨[], [⟨"A", "B", "R", [("a", "1")]⟩, ⟨"A", "B", "R", [("b", "2")]⟩]⟩).2
      = ["r/A_B_R.csv", "r/A_B_R.csv"] ∧
    lookupSet (load "n/" "r/" ⟨[], []⟩
      ⟨[], [⟨"A", "B", "R", [("a", "1")]⟩, ⟨"A", "B", "R", [("b", "2")]⟩]⟩).1.keys
      (colSet [("a", "1")]) = some 0 ∧
    lookupSet (load "n/" "r/" ⟨[], []⟩
      ⟨[], [⟨"A", "B", "R", [("a", "1")]⟩, ⟨"A", "B", "R", [("b", "2")]⟩]⟩).1.keys
      (colSet [("b", "2")]) = some 1 := by
  refine ⟨by decide, by decide, by decide⟩

/-- C2: the claim says only a 404 on the existence check is recovered and
every other storage error propagates. In the code the `except` clause
catches every `ClientError` and only the 404 branch returns; a caught
`ClientError` with any other code (e.g. 403 permission denied) falls off
the end of `_s3_obj_exists`, which therefore returns Python `None` — it
does not propagate — and `_get_s3_object`'s `== True` test then takes the
create-new-file branch. Only exceptions that are not `ClientError`
propagate. -/
theorem c2_non_404_client_error_swallowed :
    s3_obj_exists (HeadOutcome.raises (PyExc.clientError "403")) =
      Except.ok none ∧
    s3_obj_exists (HeadOutcome.raises (PyExc.clientError "404")) =
      Except.ok (some false) ∧
    s3_obj_exists (HeadOutcome.raises PyExc.otherExc) =
      Except.error PyExc.otherExc ∧
    get_s3_object_appends none = false := by
  refine ⟨rfl, rfl, rfl, rfl⟩

/-- C3: `_make_key` assigns each unordered column-name set an integer: a
set not seen before gets the current count of known sets (ids start at 0,
first-seen order) and the mapping grows by exactly one entry; an
already-seen set returns its existing id and leaves the mapping unchanged;
both the node loop and the relationship loop feed the single shared
`_keys` mapping of the loader instance through the same `_make_key`. -/
theorem c3_make_key_assignment (keys : KeysMap) (s t : Finset String)
    (hs : lookupSet keys s = none) :
    make_key keys s = (keys.length, keys ++ [(s, keys.length)]) ∧
    (make_key keys s).2.length = keys.length + 1 ∧
    lookupSet (make_key keys s).2 s = some keys.length ∧
    (∀ v, lookupSet keys t = some v → make_key keys t = (v, keys)) ∧
    (∀ (nodePfx relPfx : String) (st : LoaderState) (n : Node) (r : Relation),
      (processNode nodePfx st n).1.keys = (make_key st.keys (colSet n.row)).2 ∧
      (processRelation relPfx st r).1.keys =
        (make_key st.keys (colSet r.row)).2) := by
  refine ⟨?_, ?_, ?_, ?_, ?_⟩
  · unfold make_key; rw [hs]
  · unfold make_key; rw [hs]; simp
  · unfold make_key; rw [hs]
    simpa using lookupSet_append_self keys s keys.length hs
  · intro v hv; unfold make_key; rw [hv]
  · intro nodePfx relPfx st n r; exact ⟨rfl, rfl⟩

/-- Witness for C3 at a concrete mapping holding one set: looking up the
recorded set returns its id, and a fresh set is appended with id 1. -/
theorem c3_make_key_assignment_witness :
    lookupSet [(colSet [("b", "y")], 0)] (colSet [("a", "x")]) = none ∧
    (make_key [(colSet [("b", "y")], 0)] (colSet [("a", "x")]) =
      (1, [(colSet [("b", "y")], 0), (colSet [("a", "x")], 1)]) ∧
    (make_key [(colSet [("b", "y")], 0)] (colSet [("a", "x")])).2.length = 2 ∧
    lookupSet (make_key [(colSet [("b", "y")], 0)] (colSet [("a", "x")])).2
      (colSet [("a", "x")]) = some 1 ∧
    (∀ v, lookupSet [(colSet [("b", "y")], 0)] (colSet [("b", "y")]) = some v →
      make_key [(colSet [("b", "y")], 0)] (colSet [("b", "y")]) =
        (v, [(colSet [("b", "y")], 0)])) ∧
    (∀ (nodePfx relPfx : String) (st : LoaderState) (n : Node) (r : Relation),
      (processNode nodePfx st n).1.keys = (make_key st.keys (colSet n.row)).2 ∧
      (processRelation relPfx st r).1.keys =
        (make_key st.keys (colSet r.row)).2)) :=
  ⟨by decide,
   c3_make_key_assignment [(colSet [("b", "y")], 0)]
     (colSet [("a", "x")]) (colSet [("b", "y")]) (by decide)⟩

/-- C8: `get_scope` returns the literal string
`loader.filesystem_csv_neo4j` for every loader state, independent of any
prior calls, and leaves the state untouched. -/
theorem c8_get_scope_constant (keys keys' : KeysMap) :
    (get_scope keys).1 = "loader.filesystem_csv_neo4j" ∧
    (get_scope keys).2 = keys ∧
    (get_scope keys).1 = (get_scope keys').1 := ⟨rfl, rfl, rfl⟩

/-- C10: after any sequence of `_make_key` calls starting from the empty
`_keys` mapping of `__init__`, the recorded ids are exactly
`0, 1, ..., size-1` in insertion order (pairwise distinct, contiguous from
0); a call on an already-recorded set leaves the mapping unchanged; and a
recorded entry is never lost by a later call. -/
theorem c10_keys_state_invariant (calls : List (Finset String)) :
    ((runKeys calls []).map Prod.snd = List.range (runKeys calls []).length) ∧
    (∀ s v, lookupSet (runKeys calls []) s = some v →
      (make_key (runKeys calls []) s).2 = runKeys calls [] ∧
      ∀ t, lookupSet (make_key (runKeys calls []) t).2 s = some v) := by
  refine ⟨runKeys_snd_range calls [] rfl, ?_⟩
  intro s v hv
  refine ⟨?_, fun t => lookupSet_make_key_preserved _ s t v hv⟩
  unfold make_key; rw [hv]

/-- Witness for C10 on the call sequence consisting of the same set twice:
a repeated call leaves the single-entry mapping unchanged. -/
theorem c10_keys_state_invariant_witness :
    (make_key (runKeys [colSet [("a", "x")]] []) (colSet [("a", "x")])).2 =
      runKeys [colSet [("a", "x")]] [] :=
  (((c10_keys_state_invariant [colSet [("a", "x")]]).2
    (colSet [("a", "x")]) 0 (by decide)).1)

/-- ACL events distribute over trace concatenation. -/
theorem aclEvents_append (a b : List S3Event) :
    aclEvents (a ++ b) = aclEvents a ++ aclEvents b := by
  simp [aclEvents]

/-- C4: for a record with exactly one node whose target key is absent from
storage, `load` performs exactly one remote write and no remote read, and
the object now stored at the target key is the single-row table whose
header is the node's serialized column names (no index column, since the
table carries only the row's own columns). -/
theorem c4_single_node_new_file (nodePfx relPfx : String) (st : LoaderState)
    (n : Node)
    (hpath : lookupObj st.store
      (nodePfx ++ (n.label ++ "_" ++
        toString (make_key st.keys (colSet n.row)).1) ++ ".csv") = none) :
    writeCount (load nodePfx relPfx st ⟨[n], []⟩).2 = 1 ∧
    readCount (load nodePfx relPfx st ⟨[n], []⟩).2 = 0 ∧
    lookupObj (load nodePfx relPfx st ⟨[n], []⟩).1.store
      (nodePfx ++ (n.label ++ "_" ++
        toString (make_key st.keys (colSet n.row)).1) ++ ".csv") =
      some [n.row] ∧
    tableHeader [n.row] = n.row.map Prod.fst := by
  simp only [load, processNodes, processNode, processRelations, get_s3_object,
    hpath, update_acls, List.append_nil, List.nil_append]
  refine ⟨?_, ?_, ?_, rfl⟩
  · simp [writeCount, List.filter]
  · simp [readCount, List.filter]
  · exact lookupObj_putObj_self st.store _ [n.row]

/-- Witness for C4: one node labelled `A` with a single column `a`,
loaded into an empty bucket, is written once (no read) to `n/A_0.csv` as a
single-row table. -/
theorem c4_single_node_new_file_witness :
    writeCount (load "n/" "r/" ⟨[], []⟩ ⟨[⟨"A", [("a", "1")]⟩], []⟩).2 = 1 ∧
    readCount (load "n/" "r/" ⟨[], []⟩ ⟨[⟨"A", [("a", "1")]⟩], []⟩).2 = 0 ∧
    lookupObj (load "n/" "r/" ⟨[], []⟩ ⟨[⟨"A", [("a", "1")]⟩], []⟩).1.store
      ("n/" ++ ("A" ++ "_" ++
        toString (make_key [] (colSet [("a", "1")])).1) ++ ".csv") =
      some [[("a", "1")]] ∧
    tableHeader [[("a", "1")]] = [("a", "1")].map Prod.fst :=
  c4_single_node_new_file "n/" "r/" ⟨[], []⟩ ⟨"A", [("a", "1")]⟩ rfl

/-- C5: for a record with exactly one node whose target key already holds
a table of N rows, `load` performs exactly one remote read followed by
exactly one remote write (the full trace is head, read, write, then the
ACL pass), and the table now stored has N+1 rows whose last row is the
node's row. -/
theorem c5_single_node_existing_file (nodePfx relPfx : String)
    (st : LoaderState) (n : Node) (t : Table)
    (hpath : lookupObj st.store
      (nodePfx ++ (n.label ++ "_" ++
        toString (make_key st.keys (colSet n.row)).1) ++ ".csv") = some t) :
    (load nodePfx relPfx st ⟨[n], []⟩).2 =
      [S3Event.headObj (nodePfx ++ (n.label ++ "_" ++
          toString (make_key st.keys (colSet n.row)).1) ++ ".csv") true,
       S3Event.readCsv (nodePfx ++ (n.label ++ "_" ++
          toString (make_key st.keys (colSet n.row)).1) ++ ".csv"),
       S3Event.writeCsv (nodePfx ++ (n.label ++ "_" ++
          toString (make_key st.keys (colSet n.row)).1) ++ ".csv"),
       S3Event.aclPass nodePfx
         (objectsUnder (putObj st.store
           (nodePfx ++ (n.label ++ "_" ++
             toString (make_key st.keys (colSet n.row)).1) ++ ".csv")
           (t ++ [n.row])) nodePfx).length] ∧
    readCount (load nodePfx relPfx st ⟨[n], []⟩).2 = 1 ∧
    writeCount (load nodePfx relPfx st ⟨[n], []⟩).2 = 1 ∧
    lookupObj (load nodePfx relPfx st ⟨[n], []⟩).1.store
      (nodePfx ++ (n.label ++ "_" ++
        toString (make_key st.keys (colSet n.row)).1) ++ ".csv") =
      some (t ++ [n.row]) ∧
    (t ++ [n.row]).length = t.length + 1 ∧
    (t ++ [n.row]).getLast? = some n.row := by
  simp only [load, processNodes, processNode, processRelations, get_s3_object,
    hpath, update_acls, List.append_nil, List.nil_append]
  refine ⟨rfl, ?_, ?_, ?_, by simp, by simp⟩
  · simp [readCount, List.filter]
  · simp [writeCount, List.filter]
  · exact lookupObj_putObj_self st.store _ (t ++ [n.row])

/-- Witness for C5: one node labelled `A` appended to an existing
one-row table at `n/A_0.csv`: head, read, write, ACL pass; the stored
table now has 2 rows ending with the node's row. -/
theorem c5_single_node_existing_file_witness :
    (load "n/" "r/" ⟨[], [("n/A_0.csv", [[("a", "0")]])]⟩
      ⟨[⟨"A", [("a", "1")]⟩], []⟩).2 =
      [S3Event.headObj ("n/" ++ ("A" ++ "_" ++
          toString (make_key [] (colSet [("a", "1")])).1) ++ ".csv") true,
       S3Event.readCsv ("n/" ++ ("A" ++ "_" ++
          toString (make_key [] (colSet [("a", "1")])).1) ++ ".csv"),
       S3Event.writeCsv ("n/" ++ ("A" ++ "_" ++
          toString (make_key [] (colSet [("a", "1")])).1) ++ ".csv"),
       S3Event.aclPass "n/"
         (objectsUnder (putObj [("n/A_0.csv", [[("a", "0")]])]
           ("n/" ++ ("A" ++ "_" ++
             toString (make_key [] (colSet [("a", "1")])).1) ++ ".csv")
           ([[("a", "0")]] ++ [[("a", "1")]])) "n/").length] ∧
    readCount (load "n/" "r/" ⟨[], [("n/A_0.csv", [[("a", "0")]])]⟩
      ⟨[⟨"A", [("a", "1")]⟩], []⟩).2 = 1 ∧
    writeCount (load "n/" "r/" ⟨[], [("n/A_0.csv", [[("a", "0")]])]⟩
      ⟨[⟨"A", [("a", "1")]⟩], []⟩).2 = 1 ∧
    lookupObj (load "n/" "r/" ⟨[], [("n/A_0.csv", [[("a", "0")]])]⟩
      ⟨[⟨"A", [("a", "1")]⟩], []⟩).1.store
      ("n/" ++ ("A" ++ "_" ++
        toString (make_key [] (colSet [("a", "1")])).1) ++ ".csv") =
      some ([[("a", "0")]] ++ [[("a", "1")]]) ∧
    ([[("a", "0")]] ++ [[("a", "1")]] : Table).length =
      ([[("a", "0")]] : Table).length + 1 ∧
    ([[("a", "0")]] ++ [[("a", "1")]] : Table).getLast? =
      some [("a", "1")] :=
  c5_single_node_existing_file "n/" "r/" ⟨[], [("n/A_0.csv", [[("a", "0")]])]⟩
    ⟨"A", [("a", "1")]⟩ [[("a", "0")]] (by decide)

/-- C6: in every `load` invocation the trace is the node-loop events,
then exactly one ACL pass over the node key prefix, then the
relationship-loop events; neither loop emits an ACL event, so the ACL
events of the whole trace are exactly that single pass, and it always
names the node prefix, never the relationship prefix. -/
theorem c6_acl_pass_once_between_nodes_and_relations (nodePfx relPfx : String)
    (st : LoaderState) (rec : Record) :
    (load nodePfx relPfx st rec).2 =
      (processNodes nodePfx st rec.nodes).2 ++
        S3Event.aclPass nodePfx
          (objectsUnder (processNodes nodePfx st rec.nodes).1.store
            nodePfx).length ::
        (processRelations relPfx (processNodes nodePfx st rec.nodes).1
          rec.relations).2 ∧
    aclEvents (processNodes nodePfx st rec.nodes).2 = [] ∧
    aclEvents (processRelations relPfx (processNodes nodePfx st rec.nodes).1
      rec.relations).2 = [] ∧
    aclEvents (load nodePfx relPfx st rec).2 =
      [S3Event.aclPass nodePfx
        (objectsUnder (processNodes nodePfx st rec.nodes).1.store
          nodePfx).length] := by
  refine ⟨by simp [load, update_acls], aclEvents_processNodes nodePfx rec.nodes st,
    aclEvents_processRelations relPfx rec.relations _, ?_⟩
  have h : (load nodePfx relPfx st rec).2 =
      (processNodes nodePfx st rec.nodes).2 ++
        ([S3Event.aclPass nodePfx
          (objectsUnder (processNodes nodePfx st rec.nodes).1.store
            nodePfx).length] ++
        (processRelations relPfx (processNodes nodePfx st rec.nodes).1
          rec.relations).2) := by
    simp [load, update_acls]
  rw [h, aclEvents_append, aclEvents_append, aclEvents_processNodes,
    aclEvents_processRelations]
  rfl

/-- C7: every object key written during the node loop has the form
`<node_s3_prefix><label>_<signature_id>.csv` for some node of the
sequence, where the signature id is the one recorded in the final `_keys`
mapping for that node's serialized column-name set. -/
theorem c7_node_write_path_format (nodePfx : String) (ns : List Node)
    (st : LoaderState) (p : String)
    (hp : p ∈ writePaths (processNodes nodePfx st ns).2) :
    ∃ n ∈ ns, ∃ sig,
      lookupSet (processNodes nodePfx st ns).1.keys (colSet n.row) =
        some sig ∧
      p = nodePfx ++ (n.label ++ "_" ++ toString sig) ++ ".csv" := by
  induction ns generalizing st with
  | nil => simp [processNodes, writePaths] at hp
  | cons n rest ih =>
    simp only [processNodes] at hp ⊢
    rw [writePaths_append, writePaths_processNode] at hp
    rcases List.mem_append.mp hp with hh | ht
    · refine ⟨n, List.mem_cons_self n rest, (make_key st.keys (colSet n.row)).1,
        ?_, by simpa using hh⟩
      have hpost := make_key_lookup_post st.keys (colSet n.row)
      exact lookupSet_processNodes_preserved nodePfx rest
        (processNode nodePfx st n).1 (colSet n.row)
        (make_key st.keys (colSet n.row)).1 hpost
    · obtain ⟨m, hm, sig, hsig, hp'⟩ := ih (processNode nodePfx st n).1 ht
      exact ⟨m, List.mem_cons_of_mem n hm, sig, hsig, hp'⟩

/-- Witness for C7: the single write of a one-node load from a fresh
loader goes to `n/A_0.csv`, which has the claimed form with signature
id 0. -/
theorem c7_node_write_path_format_witness :
    ∃ n ∈ [(⟨"A", [("a", "1")]⟩ : Node)], ∃ sig,
      lookupSet (processNodes "n/" ⟨[], []⟩
        [⟨"A", [("a", "1")]⟩]).1.keys (colSet n.row) = some sig ∧
      "n/A_0.csv" = "n/" ++ (n.label ++ "_" ++ toString sig) ++ ".csv" :=
  c7_node_write_path_format "n/" [⟨"A", [("a", "1")]⟩] ⟨[], []⟩
    "n/A_0.csv" (by decide)

/-- C9: for a record with empty node and relationship sequences, `load`
performs zero remote reads and zero remote writes, and the single ACL
pass it runs touches zero objects (there being no objects under the node
key prefix); the bucket is left unchanged. -/
theorem c9_empty_record (nodePfx relPfx : String) (st : LoaderState)
    (h : objectsUnder st.store nodePfx = []) :
    (load nodePfx relPfx st ⟨[], []⟩).2 = [S3Event.aclPass nodePfx 0] ∧
    readCount (load nodePfx relPfx st ⟨[], []⟩).2 = 0 ∧
    writeCount (load nodePfx relPfx st ⟨[], []⟩).2 = 0 ∧
    (load nodePfx relPfx st ⟨[], []⟩).1.store = st.store := by
  simp [load, processNodes, processRelations, update_acls, h,
    readCount, writeCount, List.filter]

/-- Witness for C9: an empty record loaded into an empty bucket gives a
trace of exactly one ACL pass over zero objects. -/
theorem c9_empty_record_witness :
    (load "n/" "r/" ⟨[], []⟩ ⟨[], []⟩).2 = [S3Event.aclPass "n/" 0] ∧
    readCount (load "n/" "r/" ⟨[], []⟩ ⟨[], []⟩).2 = 0 ∧
    writeCount (load "n/" "r/" ⟨[], []⟩ ⟨[], []⟩).2 = 0 ∧
    (load "n/" "r/" ⟨[], []⟩ ⟨[], []⟩).1.store = ([] : Storage) :=
  c9_empty_record "n/" "r/" ⟨[], []⟩ rfl
